import Mathlib

/-!
Shallow embedding of the incremental stock-data synchronization and
corporate-action adjustment pipeline, translated from
`src/tasks/split_adjustment.py`, `src/tasks/data_processor.py`,
`src/tasks/listing_checker.py`, `src/tasks/data_fetcher.py` and
`src/flows/daily_update_flow.py`.

Modelling conventions, shared by every definition below:

* Dates are natural numbers (a day count).  The source compares dates
  either as `datetime.date` values or as ISO-8601 `YYYY-MM-DD` strings;
  on valid dates both orders agree with the numeric order used here, and
  adding one day corresponds to `+ 1`.
* Prices and volumes are exact rationals in place of IEEE doubles: the
  claims under proof are about which rows change and by which arithmetic
  expression, not about rounding.  A rational result `none`/`Option`
  models pandas `NaN` where the source uses `NaN` as an "invalid" marker.
* Persisted files become explicit state values (lists, association
  lists); side effects (HTTP requests, parquet/csv/json writes) become
  entries of an explicit effect trace so that "no request is issued" and
  "the file is not rewritten" are provable statements.
-/

/-- A calendar date, as a day count.  ISO-8601 string comparison in the
source agrees with the numeric order on this model. -/
abbrev Date := Nat

/-- One row of a persisted OHLCV price series, after the column
standardization of `StockDataProcessor.process_stock_data`
(`data_processor.py` lines 117-129): columns `Open, High, Low, Close,
Adj Close, Volume`, indexed by `Date`.  `AdjClose` stands for the
`Adj Close` column, which is *not* among the price columns touched by
the split adjustment (`split_adjustment.py` line 211). -/
structure PriceRow where
  date : Date
  Open : ℚ
  High : ℚ
  Low : ℚ
  Close : ℚ
  AdjClose : ℚ
  Volume : ℚ
deriving DecidableEq, Repr

/-- The per-row arithmetic of `SplitAdjustment.apply_split_adjustment`
(`split_adjustment.py` lines 204-221, the `DatetimeIndex` branch): rows
strictly before `today` get `Open/High/Low/Close` multiplied by `ratio`
and `Volume` divided by `ratio`; all other rows, and all other columns,
are left untouched. -/
def adjustRow (today : Date) (ratio : ℚ) (r : PriceRow) : PriceRow :=
  if r.date < today then
    { r with
      Open := r.Open * ratio
      High := r.High * ratio
      Low := r.Low * ratio
      Close := r.Close * ratio
      Volume := r.Volume / ratio }
  else r

/-- `SplitAdjustment.apply_split_adjustment` restricted to its effect on
the loaded series (`split_adjustment.py` lines 199-241): the masked
in-place update `df.loc[mask, cols] *= ratio` / `df.loc[mask, "Volume"]
/= ratio` applied row by row; the updated frame is then saved back
wholesale. -/
def apply_split_adjustment (today : Date) (ratio : ℚ) (df : List PriceRow) : List PriceRow :=
  df.map (adjustRow today ratio)

/-! Ratio parsing, from `SplitAdjustment.ratio_to_float`
(`split_adjustment.py` lines 88-111).  Python's `\d` matches any Unicode
decimal digit; the feed only ever contains ASCII and full-width digits,
so the digit predicate below covers exactly those two blocks. -/

/-- Unicode decimal digit as matched by Python `\d`, restricted to the
ASCII (`0`-`9`) and full-width (`０`-`９`) blocks that occur in the
corporate-action feed. -/
def isPyDigit (c : Char) : Bool :=
  c.isDigit || ('０' ≤ c && c ≤ '９')

/-- Numeric value of a digit accepted by `isPyDigit`. -/
def digitVal (c : Char) : ℕ :=
  if c.isDigit then c.toNat - '0'.toNat else c.toNat - '０'.toNat

/-- Value of a non-empty digit string, as `int`/`float` conversion reads
it. -/
def natOfDigits (l : List Char) : ℕ :=
  l.foldl (fun acc c => 10 * acc + digitVal c) 0

/-- One side of the ratio pattern `\d+(?:\.\d+)?`, converted by Python
`float` (exact here, since every matched literal is a finite decimal). -/
def parseNum (l : List Char) : Option ℚ :=
  let intPart := l.takeWhile isPyDigit
  let rest := l.dropWhile isPyDigit
  if intPart.isEmpty then none
  else
    match rest with
    | [] => some (natOfDigits intPart)
    | '.' :: frac =>
      if frac.isEmpty || !(frac.all isPyDigit) then none
      else some ((natOfDigits intPart : ℚ) + (natOfDigits frac : ℚ) / (10 : ℚ) ^ frac.length)
    | _ => none

/-- Split a normalized ratio string at its first `:`; the anchored regex
`^(\d+(?:\.\d+)?)[:](\d+(?:\.\d+)?)$` fails exactly when there is no `:`
or when either side fails `parseNum` (a second `:` makes the right side
fail, since `:` is neither a digit nor a dot). -/
def breakAtColon : List Char → Option (List Char × List Char)
  | [] => none
  | c :: rest =>
    if c = ':' then some ([], rest)
    else (breakAtColon rest).map (fun p => (c :: p.1, p.2))

/-- The normalization of `ratio_to_float` (`split_adjustment.py` lines
97-101): full-width colon to ASCII, then removal of ASCII and full-width
spaces. -/
def normalizeRatio (s : String) : List Char :=
  (s.data.map (fun c => if c = '：' then ':' else c)).filter
    (fun c => !(c == ' ' || c == '　'))

/-- The tail of `ratio_to_float` after the regex match
(`split_adjustment.py` lines 103-111): no match (either side failed) or
a zero denominator gives `NaN`; otherwise left divided by right. -/
def ratioOfParts : Option ℚ → Option ℚ → Option ℚ
  | some left, some right => if right = 0 then none else some (left / right)
  | _, _ => none

/-- `SplitAdjustment.ratio_to_float` (`split_adjustment.py` lines
88-111): normalize, match `^(\d+(?:\.\d+)?)[:](\d+(?:\.\d+)?)$`, return
left divided by right; `none` models the `NaN` returned on a failed
match or a zero denominator. -/
def ratio_to_float (s : String) : Option ℚ :=
  match breakAtColon (normalizeRatio s) with
  | none => none
  | some (l, r) => ratioOfParts (parseNum l) (parseNum r)

/-- Whether the normalized input matches the `number:number` pattern of
`ratio_to_float` (ignoring the zero-denominator check, which is applied
after the match). -/
def matchesRatioPattern (s : String) : Bool :=
  match breakAtColon (normalizeRatio s) with
  | none => false
  | some (l, r) => (parseNum l).isSome && (parseNum r).isSome

/-! Series merging, from `StockDataProcessor` (`data_processor.py`).
Rows here are always fully populated, so the column selection (lines
117-129) and the ffill/bfill missing-value repair (lines 131-144) are
the identity on this model; the date-level steps (duplicate removal
keeping the last occurrence, ascending sort) are kept exactly. -/

/-- Pandas `df[~df.index.duplicated(keep="last")]`: keep a row exactly
when its date does not occur again later in the list, preserving the
relative order of the survivors. -/
def dedupKeepLast : List PriceRow → List PriceRow
  | [] => []
  | r :: rs =>
    if r.date ∈ rs.map PriceRow.date then dedupKeepLast rs else r :: dedupKeepLast rs

/-- Comparison by date, the key used by `sort_index()`. -/
def dateLe (a b : PriceRow) : Prop := a.date ≤ b.date

instance : DecidableRel dateLe := fun a b => Nat.decLe a.date b.date

instance : IsTotal PriceRow dateLe := ⟨fun a b => Nat.le_total a.date b.date⟩

instance : IsTrans PriceRow dateLe := ⟨fun _ _ _ h h2 => Nat.le_trans h h2⟩

/-- Pandas `sort_index()`: a stable ascending sort by date. -/
def sortByDate (l : List PriceRow) : List PriceRow := List.insertionSort dateLe l

/-- `StockDataProcessor.process_stock_data` (`data_processor.py` lines
93-158) on the fully-populated row model: empty in, empty out;
otherwise drop duplicate dates keeping the last occurrence (only when
duplicates exist, line 151), then sort ascending by date. -/
def process_stock_data (data : List PriceRow) : List PriceRow :=
  if data = [] then []
  else
    sortByDate (if ¬ (data.map PriceRow.date).Nodup then dedupKeepLast data else data)

/-- The incremental-merge core of `StockDataProcessor.merge_stock_data`
(`data_processor.py` lines 236-243): concatenate existing then incoming,
drop duplicate dates keeping the last occurrence (only when duplicates
exist, line 239), sort ascending by date. -/
def merge_incremental (existing processed : List PriceRow) : List PriceRow :=
  let combined := existing ++ processed
  sortByDate (if ¬ (combined.map PriceRow.date).Nodup then dedupKeepLast combined else combined)

/-- Observable actions of `merge_stock_data` on the processed-price
store: reading the existing parquet file (line 235) and saving a series
(`save_processed_data`, line 246 / 252 / 256). -/
inductive MergeEffect
  | readExisting
  | save (rows : List PriceRow)
deriving DecidableEq, Repr

/-- `StockDataProcessor.merge_stock_data` in `incr` mode
(`data_processor.py` lines 191-257): load the raw incoming frame
(`new_data`), return immediately when it is empty (lines 211-213, before
the existing file is read); otherwise process it, return if processing
left nothing (lines 218-220); otherwise merge with the existing file
when one exists, or save the processed frame as-is.  Returns the new
stored series (if any) and the effect trace on the processed store. -/
def merge_stock_data (new_data : List PriceRow) (existingFile : Option (List PriceRow)) :
    Option (List PriceRow) × List MergeEffect :=
  if new_data = [] then (existingFile, [])
  else
    let processed := process_stock_data new_data
    if processed = [] then (existingFile, [])
    else
      match existingFile with
      | some existing =>
        let combined := merge_incremental existing processed
        (some combined, [MergeEffect.readExisting, MergeEffect.save combined])
      | none => (some processed, [MergeEffect.save processed])

/-! Registry reconciliation, from `StockListingChecker`
(`listing_checker.py`).  A registry row carries the columns shared by
the feeds and the persisted csv (`更新日`, `銘柄名`, `コード`,
`市場区分`); rows are keyed by `code`. -/

/-- One row of the instrument registry or of a listing/delisting feed. -/
structure ListingRow where
  date : Date
  name : String
  code : String
  segment : String
deriving DecidableEq, Repr

/-- A raised Python exception, as a value. -/
inductive PyError
  | attributeError (msg : String)
deriving DecidableEq, Repr

/-- The new-listing loop (`listing_checker.py` lines 130-144): for each
same-day new listing, skip it when its code is already present in the
accumulated frame, otherwise append it. -/
def insertNewListings (existing today_new : List ListingRow) : List ListingRow :=
  today_new.foldl
    (fun acc row =>
      if row.code ∈ acc.map ListingRow.code then acc else acc ++ [row])
    existing

/-- The delisting loop (`listing_checker.py` lines 149-153): for each
same-day delisted code that is present, drop every row carrying it;
absent codes are a no-op. -/
def removeDelisted (existing today_del : List ListingRow) : List ListingRow :=
  today_del.foldl
    (fun acc row =>
      if row.code ∈ acc.map ListingRow.code then
        acc.filter (fun r => !(r.code == row.code))
      else acc)
    existing

/-- The reconciliation body of `update_listing_data` as written on lines
123-156 of `listing_checker.py` (the code that line 122 was meant to
reach): filter both feeds to today's rows, insert new listings whose
code is absent, then remove delisted codes. -/
def update_listing_intended (today : Date) (existing new_listings delisted : List ListingRow) :
    List ListingRow :=
  let today_new := new_listings.filter (fun r => r.date == today)
  let today_del := delisted.filter (fun r => r.date == today)
  removeDelisted (insertNewListings existing today_new) today_del

/-- `StockListingChecker.update_listing_data` (`listing_checker.py`
lines 111-157).  The module imports the class with
`from datetime import datetime` (line 2), yet line 122 evaluates
`datetime.datetime.now()`; the `datetime` class has no attribute
`datetime`, so an `AttributeError` is raised there — after the reads of
lines 114-119 but before the update loops and before `save_updated_data`
on line 156.  The unreachable remainder is kept as the `pure` after the
`throw`. -/
def update_listing_data (today : Date) (existing new_listings delisted : List ListingRow) :
    Except PyError (List ListingRow) := do
  throw (PyError.attributeError "type object datetime has no attribute datetime")
  pure (update_listing_intended today existing new_listings delisted)

/-- One invocation of `update_listing_data` against the persisted
registry file: on normal return the updated frame is written by
`save_updated_data` (line 156); on an exception the file is left exactly
as it was, and the exception propagates to the caller. -/
def run_update_listing_data (today : Date) (registryFile : List ListingRow)
    (new_listings delisted : List ListingRow) : List ListingRow × Option PyError :=
  match update_listing_data today registryFile new_listings delisted with
  | Except.ok updated => (updated, none)
  | Except.error e => (registryFile, some e)

/-! Incremental fetching, from `StockDataFetcher` (`data_fetcher.py`).
The external download and the parquet write are parameters of the
embedding: `download` is the frame `yf.download` would return for the
issued request (the transport-error path, which also yields an empty
frame, is subsumed by `download = []`), and `writeOk` says whether
`to_parquet` succeeds inside `save_stock_data`.  The `.T` suffixing of
numeric tickers (line 142-143) is a renaming and is left out: `ticker`
stands for the already-suffixed key used in `metadata["tickers"]`. -/

/-- Persisted state touched by the fetcher: the metadata file
(`tickers` cursor map and `last_updated`) and the raw parquet store. -/
structure FetcherState where
  tickers : List (String × Date)
  last_updated : Option Date
  rawStore : List (String × List PriceRow)
deriving DecidableEq, Repr

/-- Externally observable actions of a fetch-and-save run. -/
inductive FetchEffect
  | request (ticker : String) (startDate endDate : Date)
  | metaWrite (tickers : List (String × Date))
  | frameWrite (ticker : String) (rows : List PriceRow)
  | frameWriteFailed (ticker : String)
deriving DecidableEq, Repr

/-- Python dict assignment `m[k] = v` on an association list (keys are
unique in a dict): replace the entry when the key is present, append
otherwise. -/
def setKey {α : Type} : List (String × α) → String → α → List (String × α)
  | [], k, v => [(k, v)]
  | p :: rest, k, v => if p.1 = k then (k, v) :: rest else p :: setKey rest k v

/-- Date of the last row of a frame (`df.index[-1]`); only used on
non-empty frames. -/
def lastRowDate (rows : List PriceRow) : Date :=
  ((rows.getLast?).map PriceRow.date).getD 0

/-- `StockDataFetcher.fetch_stock_data` (`data_fetcher.py` lines
120-178): issue the download request; on an empty (or failed) response
return an empty frame leaving the metadata untouched; on a non-empty
response set the ticker's cursor to the last downloaded row's date,
stamp `last_updated`, and persist the metadata file at once
(`_save_metadata`, line 171).  Returns the frame, the new state and the
effect trace. -/
def fetch_stock_data (st : FetcherState) (today : Date) (ticker : String)
    (startDate endDate : Date) (download : List PriceRow) :
    List PriceRow × FetcherState × List FetchEffect :=
  if download = [] then ([], st, [FetchEffect.request ticker startDate endDate])
  else
    let tickers := setKey st.tickers ticker (lastRowDate download)
    (download,
     { st with tickers := tickers, last_updated := some today },
     [FetchEffect.request ticker startDate endDate, FetchEffect.metaWrite tickers])

/-- `StockDataFetcher.save_stock_data` (`data_fetcher.py` lines
180-210): empty frames are not written; a failing `to_parquet` is caught
and only logged (lines 209-210), leaving every store unchanged.  The
`mode` argument of the source only selects the target sub-directory and
is omitted. -/
def save_stock_data (st : FetcherState) (ticker : String) (data : List PriceRow)
    (writeOk : Bool) : FetcherState × List FetchEffect :=
  if data = [] then (st, [])
  else if writeOk then
    ({ st with rawStore := setKey st.rawStore ticker data },
     [FetchEffect.frameWrite ticker data])
  else (st, [FetchEffect.frameWriteFailed ticker])

/-- `StockDataFetcher.fetch_and_save_stock_data` (`data_fetcher.py`
lines 212-240): with `full_load` or no stored cursor, fetch the full
history (earliest supported date `0` through `today`); otherwise fetch
`cursor + 1 .. today`, returning immediately — no request, no write —
when `start_date >= end_date` (the source compares the ISO strings,
whose order agrees with the numeric order here).  The fetched frame is
then passed to `save_stock_data`. -/
def fetch_and_save_stock_data (st : FetcherState) (today : Date) (ticker : String)
    (full_load : Bool) (download : List PriceRow) (writeOk : Bool) :
    FetcherState × List FetchEffect :=
  match st.tickers.lookup ticker, full_load with
  | some latest, false =>
    let startDate := latest + 1
    if today ≤ startDate then (st, [])
    else
      let fetched := fetch_stock_data st today ticker startDate today download
      let saved := save_stock_data fetched.2.1 ticker fetched.1 writeOk
      (saved.1, fetched.2.2 ++ saved.2)
  | _, _ =>
    let fetched := fetch_stock_data st today ticker 0 today download
    let saved := save_stock_data fetched.2.1 ticker fetched.1 writeOk
    (saved.1, fetched.2.2 ++ saved.2)

/-! The daily pipeline, from `daily_update_flow.py`.  Each task body is
wrapped in `try/except` and returns a boolean, so a task never raises;
the flow below is parameterized by the boolean each task would return if
invoked, and additionally records which tasks it actually invoked. -/

/-- The summary dictionary returned by `daily_update_flow`
(`daily_update_flow.py` lines 143-148). -/
structure FlowResult where
  listing_update : Bool
  stock_data_fetch : Bool
  split_adjustment : Bool
  overall_success : Bool
deriving DecidableEq, Repr

/-- The three pipeline stages. -/
inductive FlowStage
  | listing
  | fetch
  | adjust
deriving DecidableEq, Repr

/-- `daily_update_flow` (`daily_update_flow.py` lines 108-148): run the
listing task; run the fetch task only when the listing task returned
`True` (lines 126-130); run the adjustment task only when both prior
results are `True` (lines 133-137); return the summary in which
`overall_success` is `total_success == 3` with `total_success` the sum
of the three booleans (lines 140-147).  The second component lists the
tasks that were invoked, in order. -/
def daily_update_flow (listingTask fetchTask adjustTask : Bool) :
    FlowResult × List FlowStage :=
  let listing_result := listingTask
  let fetchStep : Bool × List FlowStage :=
    if listing_result then (fetchTask, [FlowStage.fetch]) else (false, [])
  let fetch_result := fetchStep.1
  let adjustStep : Bool × List FlowStage :=
    if listing_result && fetch_result then (adjustTask, [FlowStage.adjust]) else (false, [])
  let adjust_result := adjustStep.1
  let total_success := listing_result.toNat + fetch_result.toNat + adjust_result.toNat
  ({ listing_update := listing_result
     stock_data_fetch := fetch_result
     split_adjustment := adjust_result
     overall_success := total_success == 3 },
   FlowStage.listing :: (fetchStep.2 ++ adjustStep.2))

/-! The same-day adjustment loop, from
`SplitAdjustment.update_split_adjustments` (`split_adjustment.py` lines
250-288). -/

/-- One scraped corporate-action record after `scrape_all`: the parsed
date (`pd.to_datetime(..., errors="coerce")`, `none` modelling `NaT`)
and the parsed ratio (`ratio_to_float`, `none` modelling `NaN`). -/
structure ActionRecord where
  date : Option Date
  code : String
  name : String
  segment : String
  ratio : Option ℚ
deriving DecidableEq, Repr

/-- `SplitAdjustment.update_split_adjustments` (`split_adjustment.py`
lines 250-288), reduced to the calls it makes: given the concatenated
split and merger frames, return early when nothing was scraped (line
263) or when nothing is dated today (line 271); otherwise iterate over
today's records, skipping every record whose ratio is `NaN` (lines
281-283) and calling `apply_split_adjustment(ticker, ratio)` for the
rest.  The result is the list of `(ticker, ratio)` arguments passed to
the applier, in order. -/
def update_split_adjustments (all_df : List ActionRecord) (today : Date) :
    List (String × ℚ) :=
  if all_df = [] then []
  else
    let today_df := all_df.filter (fun r => r.date == some today)
    if today_df = [] then []
    else today_df.filterMap (fun r => r.ratio.map (fun q => (r.code, q)))

/-! Helper lemmas shared by the claim theorems. -/

theorem lookup_setKey {α : Type} (m : List (String × α)) (k : String) (v : α) :
    (setKey m k v).lookup k = some v := by
  induction m with
  | nil => simp [setKey, List.lookup]
  | cons p rest ih =>
    by_cases hp : p.1 = k
    · simp [setKey, hp, List.lookup]
    · have hk : (k == p.1) = false := by
        simp [Ne.symm hp]
      simp [setKey, hp, List.lookup, hk, ih]

theorem map_date_dedupKeepLast_subset (l : List PriceRow) :
    (dedupKeepLast l).map PriceRow.date ⊆ l.map PriceRow.date := by
  induction l with
  | nil => simp [dedupKeepLast]
  | cons r rs ih =>
    simp only [dedupKeepLast]
    by_cases h : r.date ∈ rs.map PriceRow.date
    · rw [if_pos h]
      intro d hd
      exact List.mem_cons_of_mem _ (ih hd)
    · rw [if_neg h]
      intro d hd
      simp only [List.map_cons, List.mem_cons] at hd ⊢
      rcases hd with hd | hd
      · exact Or.inl hd
      · exact Or.inr (ih hd)

theorem mem_map_date_dedupKeepLast {l : List PriceRow} {d : Date}
    (hd : d ∈ l.map PriceRow.date) : d ∈ (dedupKeepLast l).map PriceRow.date := by
  induction l with
  | nil => simp at hd
  | cons r rs ih =>
    simp only [List.map_cons, List.mem_cons] at hd
    simp only [dedupKeepLast]
    by_cases h : r.date ∈ rs.map PriceRow.date
    · rw [if_pos h]
      rcases hd with hd | hd
      · exact ih (hd ▸ h)
      · exact ih hd
    · rw [if_neg h]
      simp only [List.map_cons, List.mem_cons]
      rcases hd with hd | hd
      · exact Or.inl hd
      · exact Or.inr (ih hd)

theorem nodup_map_date_dedupKeepLast (l : List PriceRow) :
    ((dedupKeepLast l).map PriceRow.date).Nodup := by
  induction l with
  | nil => simp [dedupKeepLast]
  | cons r rs ih =>
    simp only [dedupKeepLast]
    by_cases h : r.date ∈ rs.map PriceRow.date
    · rw [if_pos h]; exact ih
    · rw [if_neg h]
      simp only [List.map_cons, List.nodup_cons]
      exact ⟨fun hmem => h (map_date_dedupKeepLast_subset rs hmem), ih⟩

theorem dedupKeepLast_eq_self {l : List PriceRow} (h : (l.map PriceRow.date).Nodup) :
    dedupKeepLast l = l := by
  induction l with
  | nil => rfl
  | cons r rs ih =>
    simp only [List.map_cons, List.nodup_cons] at h
    simp only [dedupKeepLast]
    rw [if_neg h.1, ih h.2]

theorem perm_sortByDate (l : List PriceRow) : List.Perm (sortByDate l) l :=
  List.perm_insertionSort dateLe l

theorem sorted_sortByDate (l : List PriceRow) : List.Sorted dateLe (sortByDate l) :=
  List.sorted_insertionSort dateLe l

theorem merge_incremental_eq (existing incoming : List PriceRow) :
    merge_incremental existing incoming =
      sortByDate (dedupKeepLast (existing ++ incoming)) := by
  by_cases h : ((existing ++ incoming).map PriceRow.date).Nodup
  · have heq : merge_incremental existing incoming = sortByDate (existing ++ incoming) := by
      unfold merge_incremental
      rw [List.map_append] at h
      simp [h]
    rw [heq, dedupKeepLast_eq_self h]
  · unfold merge_incremental
    rw [List.map_append] at h
    simp [h]

/-- C1: on a date-indexed persisted series, `apply_split_adjustment`
multiplies `Open/High/Low/Close` by the ratio and divides `Volume` by
the ratio exactly on the rows dated strictly before the run date, leaves
every row dated on or after the run date unchanged, and leaves the
non-OHLCV data of all rows (the `Adj Close` column and the date index)
untouched.  The row count is preserved, and the record update in the
`date < today` case exhibits the unchanged fields literally. -/
theorem apply_split_adjustment_frame (today : Date) (ratio : ℚ) (df : List PriceRow)
    (i : ℕ) (r : PriceRow) (h : df[i]? = some r) :
    (apply_split_adjustment today ratio df).length = df.length ∧
    (r.date < today →
      (apply_split_adjustment today ratio df)[i]? = some
        { r with
          Open := r.Open * ratio
          High := r.High * ratio
          Low := r.Low * ratio
          Close := r.Close * ratio
          Volume := r.Volume / ratio }) ∧
    (today ≤ r.date → (apply_split_adjustment today ratio df)[i]? = some r) := by
  refine ⟨by simp [apply_split_adjustment], ?_, ?_⟩
  · intro hd
    simp [apply_split_adjustment, List.getElem?_map, h, adjustRow, hd]
  · intro hd
    simp [apply_split_adjustment, List.getElem?_map, h, adjustRow, Nat.not_lt.mpr hd]

theorem apply_split_adjustment_frame_witness :
    (apply_split_adjustment 5 2
        [⟨1, 10, 12, 9, 11, 11, 100⟩, ⟨5, 20, 22, 19, 21, 21, 50⟩])[0]? =
      some ⟨1, 10 * 2, 12 * 2, 9 * 2, 11 * 2, 11, 100 / 2⟩ :=
  (apply_split_adjustment_frame 5 2
    [⟨1, 10, 12, 9, 11, 11, 100⟩, ⟨5, 20, 22, 19, 21, 21, 50⟩] 0
    ⟨1, 10, 12, 9, 11, 11, 100⟩ rfl).2.1 (by decide)

/-- C2: for every existing series satisfying the persisted-series
invariant (unique dates) and every non-empty incoming frame, the
incremental merge equals concatenate-existing-then-incoming, drop
duplicate dates keeping the last occurrence (incoming wins on overlap),
then sort ascending by date; the result is unique-and-sorted by date
(strictly increasing dates), and its row count never drops below the
existing series' row count. -/
theorem merge_incremental_spec (existing incoming : List PriceRow)
    (_hne : incoming ≠ []) (hex : (existing.map PriceRow.date).Nodup) :
    merge_incremental existing incoming =
      sortByDate (dedupKeepLast (existing ++ incoming)) ∧
    ((merge_incremental existing incoming).map PriceRow.date).Nodup ∧
    List.Pairwise (fun a b => a.date < b.date) (merge_incremental existing incoming) ∧
    existing.length ≤ (merge_incremental existing incoming).length := by
  have heq := merge_incremental_eq existing incoming
  have hperm : List.Perm (merge_incremental existing incoming)
      (dedupKeepLast (existing ++ incoming)) := by
    rw [heq]; exact perm_sortByDate _
  have hnodupDates : ((merge_incremental existing incoming).map PriceRow.date).Nodup :=
    ((hperm.map PriceRow.date).nodup_iff).mpr (nodup_map_date_dedupKeepLast _)
  have hsorted : List.Sorted dateLe (merge_incremental existing incoming) := by
    rw [heq]; exact sorted_sortByDate _
  refine ⟨heq, hnodupDates, ?_, ?_⟩
  · have hne2 : List.Pairwise (fun a b : PriceRow => a.date ≠ b.date)
        (merge_incremental existing incoming) :=
      List.pairwise_map.mp hnodupDates
    exact (hsorted.and hne2).imp (fun hab => Nat.lt_of_le_of_ne hab.1 hab.2)
  · have hsub : existing.map PriceRow.date ⊆
        (dedupKeepLast (existing ++ incoming)).map PriceRow.date := by
      intro d hd
      refine mem_map_date_dedupKeepLast ?_
      rw [List.map_append]
      exact List.mem_append_left _ hd
    have hlen := (hex.subperm hsub).length_le
    calc existing.length = (existing.map PriceRow.date).length := (List.length_map _ _).symm
      _ ≤ ((dedupKeepLast (existing ++ incoming)).map PriceRow.date).length := hlen
      _ = (dedupKeepLast (existing ++ incoming)).length := List.length_map _ _
      _ = (merge_incremental existing incoming).length := by
          rw [heq]; exact (perm_sortByDate _).length_eq.symm

theorem merge_incremental_spec_witness :
    ([⟨1, 1, 1, 1, 1, 1, 1⟩, ⟨2, 2, 2, 2, 2, 2, 2⟩] : List PriceRow).length ≤
      (merge_incremental [⟨1, 1, 1, 1, 1, 1, 1⟩, ⟨2, 2, 2, 2, 2, 2, 2⟩]
        [⟨2, 3, 3, 3, 3, 3, 3⟩, ⟨4, 4, 4, 4, 4, 4, 4⟩]).length :=
  (merge_incremental_spec [⟨1, 1, 1, 1, 1, 1, 1⟩, ⟨2, 2, 2, 2, 2, 2, 2⟩]
    [⟨2, 3, 3, 3, 3, 3, 3⟩, ⟨4, 4, 4, 4, 4, 4, 4⟩]
    (List.cons_ne_nil _ _) (by decide)).2.2.2

/-- C4: `ratio_to_float` normalizes the full-width colon and strips
ASCII and full-width spaces, then parses `N:M` as `N / M`:
`"2:1"` gives `2`, the full-width `"１：２"` gives `1 / 2`, `"abc"` is
invalid (`none`, the `NaN` of the source), and `"1:0"` is invalid
because a zero denominator is rejected; any input whose normalization
fails the `number:number` pattern yields an invalid result. -/
theorem ratio_to_float_spec (s : String) (h : matchesRatioPattern s = false) :
    ratio_to_float s = none ∧
    ratio_to_float "2:1" = some 2 ∧
    ratio_to_float "１：２" = some (1 / 2) ∧
    ratio_to_float "abc" = none ∧
    ratio_to_float "1:0" = none := by
  refine ⟨?_, ?_, rfl, rfl, rfl⟩
  · unfold ratio_to_float
    unfold matchesRatioPattern at h
    cases hb : breakAtColon (normalizeRatio s) with
    | none => rfl
    | some p =>
      obtain ⟨l, r⟩ := p
      rw [hb] at h
      have h2 : ((parseNum l).isSome && (parseNum r).isSome) = false := h
      show ratioOfParts (parseNum l) (parseNum r) = none
      cases hl : parseNum l with
      | none => rfl
      | some a =>
        cases hr : parseNum r with
        | none => rfl
        | some b =>
          rw [hl, hr] at h2
          simp at h2
  · have h2 : ratio_to_float "2:1" = some (2 / 1) := rfl
    rw [h2]
    norm_num

theorem ratio_to_float_spec_witness :
    matchesRatioPattern "abc" = false ∧ ratio_to_float "abc" = none :=
  ⟨rfl, (ratio_to_float_spec "abc" rfl).2.2.2.1⟩

/-- C5: whenever the stored cursor date of a ticker is today or later,
the incremental path of `fetch_and_save_stock_data` (with
`full_load = false`) returns at once: no download request is issued, no
effect at all is emitted, and the fetcher state (metadata and raw store)
is returned unchanged. -/
theorem fetch_skip_when_cursor_current (st : FetcherState) (today : Date) (ticker : String)
    (download : List PriceRow) (writeOk : Bool) (d : Date)
    (hc : st.tickers.lookup ticker = some d) (hd : today ≤ d) :
    fetch_and_save_stock_data st today ticker false download writeOk = (st, []) := by
  unfold fetch_and_save_stock_data
  rw [hc]
  simp [Nat.le_succ_of_le hd]

theorem fetch_skip_when_cursor_current_witness :
    fetch_and_save_stock_data ⟨[("7203", 10)], none, []⟩ 10 "7203" false
      [⟨11, 1, 1, 1, 1, 1, 1⟩] true = (⟨[("7203", 10)], none, []⟩, []) :=
  fetch_skip_when_cursor_current ⟨[("7203", 10)], none, []⟩ 10 "7203"
    [⟨11, 1, 1, 1, 1, 1, 1⟩] true 10 rfl (Nat.le_refl 10)

/-- C6: `daily_update_flow` invokes the fetch stage exactly when the
listing-reconciliation stage returned `true`, invokes the adjustment
stage exactly when both prior stage results are `true`, and its summary
record — always returned, since every task wraps its body in a
catch-all and the flow body is total — has `overall_success` equal to
the conjunction of the three stage booleans. -/
theorem daily_update_flow_spec (l f a : Bool) :
    (FlowStage.fetch ∈ (daily_update_flow l f a).2 ↔ l = true) ∧
    (FlowStage.adjust ∈ (daily_update_flow l f a).2 ↔
      (l = true ∧ (daily_update_flow l f a).1.stock_data_fetch = true)) ∧
    ((daily_update_flow l f a).1.overall_success =
      ((daily_update_flow l f a).1.listing_update &&
        ((daily_update_flow l f a).1.stock_data_fetch &&
          (daily_update_flow l f a).1.split_adjustment))) := by
  cases l <;> cases f <;> cases a <;> decide

/-- C7: when the incoming frame is empty in incremental mode,
`merge_stock_data` is a no-op: it emits no effect (the existing file is
neither read nor re-saved) and the stored series is returned exactly as
it was. -/
theorem merge_stock_data_empty_incoming (existingFile : Option (List PriceRow)) :
    merge_stock_data [] existingFile = (existingFile, []) := rfl

/-- C8: the adjustment loop of `update_split_adjustments` equals the
same-day records filtered to those whose parsed ratio is valid: a record
with a `NaN` ratio contributes no call to `apply_split_adjustment`
(and, as the origin property states, every call that is issued carries a
ratio some record actually parsed — an invalid ratio is never defaulted
to `1.0`), while every same-day record with a valid ratio still produces
its call. -/
theorem update_split_adjustments_spec (all_df : List ActionRecord) (today : Date)
    (ticker : String) (q : ℚ)
    (hmem : (ticker, q) ∈ update_split_adjustments all_df today) :
    update_split_adjustments all_df today =
      (all_df.filter (fun r => r.date == some today)).filterMap
        (fun r => r.ratio.map (fun q2 => (r.code, q2))) ∧
    (∃ r ∈ all_df, r.date = some today ∧ r.code = ticker ∧ r.ratio = some q) := by
  have heq : update_split_adjustments all_df today =
      (all_df.filter (fun r => r.date == some today)).filterMap
        (fun r => r.ratio.map (fun q2 => (r.code, q2))) := by
    unfold update_split_adjustments
    by_cases h1 : all_df = []
    · subst h1; rfl
    · rw [if_neg h1]
      by_cases h2 : all_df.filter (fun r => r.date == some today) = []
      · rw [if_pos h2, h2]
        rfl
      · rw [if_neg h2]
  refine ⟨heq, ?_⟩
  rw [heq] at hmem
  rcases List.mem_filterMap.mp hmem with ⟨r, hrmem, hval⟩
  rcases List.mem_filter.mp hrmem with ⟨hrall, hrdate⟩
  rcases Option.map_eq_some'.mp hval with ⟨q2, hq2, hpair⟩
  rw [Prod.mk.injEq] at hpair
  refine ⟨r, hrall, by simpa using hrdate, hpair.1, ?_⟩
  rw [hq2, hpair.2]

theorem update_split_adjustments_spec_witness :
    (("6501", (2 : ℚ)) ∈
      update_split_adjustments
        [⟨some 7, "9984", "SBG", "Prime", none⟩, ⟨some 7, "6501", "Hitachi", "Prime", some 2⟩] 7) ∧
    (∃ r ∈ [(⟨some 7, "9984", "SBG", "Prime", none⟩ : ActionRecord),
            ⟨some 7, "6501", "Hitachi", "Prime", some 2⟩],
      r.date = some 7 ∧ r.code = "6501" ∧ r.ratio = some 2) :=
  ⟨by decide,
   (update_split_adjustments_spec
     [⟨some 7, "9984", "SBG", "Prime", none⟩, ⟨some 7, "6501", "Hitachi", "Prime", some 2⟩]
     7 "6501" 2 (by decide)).2⟩

/-- C9: for every registry state and every feed content,
`update_listing_data` raises `AttributeError` — line 122 evaluates
`datetime.datetime.now()` though `from datetime import datetime` binds
the class, which has no `datetime` attribute — strictly before the
`save_updated_data` call, so every invocation leaves the persisted
registry file unchanged. -/
theorem update_listing_data_always_raises (today : Date)
    (registry new_listings delisted : List ListingRow) :
    update_listing_data today registry new_listings delisted =
      Except.error (PyError.attributeError "type object datetime has no attribute datetime") ∧
    run_update_listing_data today registry new_listings delisted =
      (registry,
       some (PyError.attributeError "type object datetime has no attribute datetime")) :=
  ⟨rfl, rfl⟩

/-- C3: the end-to-end reconciliation scenario, evaluated on the code:
with registry `{7203}`, a same-day new-listing feed `{6501}` and a
same-day delisted feed `{7203}`, the actual `update_listing_data` run
raises `AttributeError` and leaves the registry at `{7203}` — not the
`{6501}` the claim requires — while the reconciliation body the function
was written to execute (lines 123-156, `update_listing_intended`) does
produce exactly `{6501}`. -/
theorem reconcile_scenario_code_bug :
    (run_update_listing_data 7 [⟨1, "Toyota", "7203", "Prime"⟩]
        [⟨7, "Hitachi", "6501", "Prime"⟩] [⟨7, "Toyota", "7203", "Prime"⟩]).1 =
      [⟨1, "Toyota", "7203", "Prime"⟩] ∧
    (run_update_listing_data 7 [⟨1, "Toyota", "7203", "Prime"⟩]
        [⟨7, "Hitachi", "6501", "Prime"⟩] [⟨7, "Toyota", "7203", "Prime"⟩]).2 =
      some (PyError.attributeError "type object datetime has no attribute datetime") ∧
    (update_listing_intended 7 [⟨1, "Toyota", "7203", "Prime"⟩]
        [⟨7, "Hitachi", "6501", "Prime"⟩] [⟨7, "Toyota", "7203", "Prime"⟩]).map
        ListingRow.code = ["6501"] := by
  refine ⟨rfl, rfl, ?_⟩
  rfl

/-- C10: after a successful non-empty download (either fetch path),
`fetch_stock_data` sets the ticker's cursor to the last downloaded row's
date and persists the metadata file, and only afterwards does
`save_stock_data` attempt the frame write; when that write fails it is
caught without rolling the cursor back, so the cursor has durably
advanced while the raw store still holds no data for the fetched range
— the trace shows the metadata write strictly before the failed frame
write, the final cursor equal to the last downloaded date, and the raw
store unchanged. -/
theorem cursor_advances_before_frame_write (st : FetcherState) (today : Date)
    (ticker : String) (d : Date) (download : List PriceRow) (full_load : Bool)
    (hc : st.tickers.lookup ticker = some d) (hlt : d + 1 < today) (hne : download ≠ []) :
    ((fetch_and_save_stock_data st today ticker full_load download false).1.tickers.lookup
        ticker = some (lastRowDate download)) ∧
    (fetch_and_save_stock_data st today ticker full_load download false).1.rawStore =
      st.rawStore ∧
    (fetch_and_save_stock_data st today ticker full_load download false).2 =
      [FetchEffect.request ticker (if full_load then 0 else d + 1) today,
       FetchEffect.metaWrite (setKey st.tickers ticker (lastRowDate download)),
       FetchEffect.frameWriteFailed ticker] := by
  have hrun : fetch_and_save_stock_data st today ticker full_load download false =
      ({ st with
          tickers := setKey st.tickers ticker (lastRowDate download)
          last_updated := some today },
       [FetchEffect.request ticker (if full_load then 0 else d + 1) today,
        FetchEffect.metaWrite (setKey st.tickers ticker (lastRowDate download)),
        FetchEffect.frameWriteFailed ticker]) := by
    cases full_load with
    | false =>
      unfold fetch_and_save_stock_data
      rw [hc]
      simp only [Nat.not_le.mpr hlt, if_neg, fetch_stock_data, save_stock_data, hne]
      simp [fetch_stock_data, save_stock_data, hne]
    | true =>
      unfold fetch_and_save_stock_data
      rw [hc]
      simp [fetch_stock_data, save_stock_data, hne]
  rw [hrun]
  exact ⟨lookup_setKey _ _ _, rfl, rfl⟩

theorem cursor_advances_before_frame_write_witness :
    ((fetch_and_save_stock_data ⟨[("7203", 3)], none, []⟩ 9 "7203" false
        [⟨5, 1, 1, 1, 1, 1, 1⟩] false).1.tickers.lookup "7203" =
      some (lastRowDate [⟨5, 1, 1, 1, 1, 1, 1⟩])) ∧
    (fetch_and_save_stock_data ⟨[("7203", 3)], none, []⟩ 9 "7203" false
        [⟨5, 1, 1, 1, 1, 1, 1⟩] false).1.rawStore = [] ∧
    (fetch_and_save_stock_data ⟨[("7203", 3)], none, []⟩ 9 "7203" false
        [⟨5, 1, 1, 1, 1, 1, 1⟩] false).2 =
      [FetchEffect.request "7203" (if false then 0 else 3 + 1) 9,
       FetchEffect.metaWrite (setKey [("7203", 3)] "7203" (lastRowDate [⟨5, 1, 1, 1, 1, 1, 1⟩])),
       FetchEffect.frameWriteFailed "7203"] :=
  cursor_advances_before_frame_write ⟨[("7203", 3)], none, []⟩ 9 "7203" 3
    [⟨5, 1, 1, 1, 1, 1, 1⟩] false rfl (by decide) (List.cons_ne_nil _ _)
